import Mathlib

/-!
# Verification of the apg-web audio pipeline

Shallow embedding of the algorithmic core of the `apg-web` repository
(audio buffer engine, WAV/MP3 encoders, phrase parser, TTS cache, OpenAI
TTS adapter) together with proofs settling the specification claims.

Modelling conventions:
* Web Audio `AudioBuffer`s are records of a sample rate, a nominal
  per-channel length, and a list of channel-data lists.  Float32 samples
  are modelled as exact rationals (`ℚ`); floating-point rounding is not
  modelled.
* JavaScript 32-bit integer coercions (`x | 0`, `<<`, `& `) are modelled
  with explicit wrap-around arithmetic on `ℤ`.
* Fallible operations (`throw`) are modelled with `Except String`.
-/

namespace Apg

/-- A decoded PCM buffer (Web Audio `AudioBuffer`): sample rate, nominal
per-channel length, and one sample list per channel. -/
structure AudioBuffer where
  sampleRate : ℕ
  length : ℕ
  chans : List (List ℚ)
  deriving Repr, DecidableEq

/-- `buffer.numberOfChannels` -/
def AudioBuffer.numberOfChannels (b : AudioBuffer) : ℕ := b.chans.length

/-- Well-formedness: every channel-data list has the buffer's nominal
length (guaranteed for real `AudioBuffer`s). -/
def AudioBuffer.WF (b : AudioBuffer) : Prop :=
  ∀ d ∈ b.chans, d.length = b.length

instance (b : AudioBuffer) : Decidable b.WF := by
  unfold AudioBuffer.WF; infer_instance

/-- `context.createBuffer(numChannels, length, sampleRate)`: zero-filled
buffer. -/
def createBuffer (numChannels length sampleRate : ℕ) : AudioBuffer :=
  { sampleRate := sampleRate
    length := length
    chans := List.replicate numChannels (List.replicate length 0) }

/-- Read sample `i` of a channel-data list.  All reads performed by the
code below are in bounds; the default `0` is never observable there. -/
def sampleAt (d : List ℚ) (i : ℕ) : ℚ := d.getD i 0

namespace AudioService

/-- `AudioService.createSilence(duration)` (AudioService.js:375-381):
`numSamples = Math.floor(sampleRate * duration)`, then
`context.createBuffer(1, numSamples, sampleRate)`.  The sample rate is the
audio context's rate, taken here as a parameter. -/
def createSilence (sampleRate : ℕ) (duration : ℚ) : AudioBuffer :=
  let numSamples := (⌊(sampleRate : ℚ) * duration⌋).toNat
  createBuffer 1 numSamples sampleRate

/-- `AudioService.mixBuffers(buffer1, buffer2, options)`
(AudioService.js:111-154).  `attenuationFactor` is the linear gain the
source computes as `Math.pow(10, (options.attenuation || 0) / 20)`; the
binary64 power itself is kept abstract and the factor is passed in.

Divergences from JavaScript, both outside the domain used by the app and
excluded by the hypotheses of the theorems below: for a zero-channel
`buffer1` the source throws (`getChannelData(-1)`) where this model reads
a default, and for a zero-length `buffer2` channel the source produces
`NaN` samples (`sourceData[i % 0]`) where this model reads a default. -/
def mixBuffers (b1 b2 : AudioBuffer) (attenuationFactor : ℚ) : AudioBuffer :=
  let numChannels := max b1.numberOfChannels b2.numberOfChannels
  let length := b1.length
  -- Loop or truncate buffer2 to match buffer1 length
  let buffer2Data : List (List ℚ) :=
    b2.chans.map (fun sourceData =>
      (List.range length).map (fun i => sampleAt sourceData (i % sourceData.length)))
  { sampleRate := b1.sampleRate
    length := length
    chans := (List.range numChannels).map (fun channel =>
      let data1 := b1.chans.getD (min channel (b1.numberOfChannels - 1)) []
      -- `buffer2Data[min(channel, len-1)] || new Float32Array(length)`
      let data2 := buffer2Data.getD (min channel (buffer2Data.length - 1))
        (List.replicate length 0)
      (List.range length).map (fun i =>
        sampleAt data1 i + sampleAt data2 i * attenuationFactor)) }

/-- `AudioService.applyFades(buffer, options)` (AudioService.js:162-189).
`fadeInMs`/`fadeOutMs` are the resolved option values (the source reads
them as `options.fadeIn || 3000` and `options.fadeOut || 6000`).

The fade-out loop runs `for (let i = fadeOutStart; i < data.length; i++)`
with `fadeOutStart = Math.max(0, data.length - fadeOutSamples)`, which may
be fractional; a fractional index on a `Float32Array` reads `undefined`
and ignores writes, so when `fadeOutStart` is not an integer the loop
changes no sample.  The model reproduces this with the
`fadeOutStart.den = 1` guard. -/
def applyFades (buffer : AudioBuffer) (fadeInMs fadeOutMs : ℚ) : AudioBuffer :=
  let sampleRate := buffer.sampleRate
  let fadeInSamples : ℚ := fadeInMs / 1000 * sampleRate
  let fadeOutSamples : ℚ := fadeOutMs / 1000 * sampleRate
  { buffer with chans := buffer.chans.map (fun data =>
      let len : ℕ := data.length
      let fadeOutStart : ℚ := max 0 ((len : ℚ) - fadeOutSamples)
      (List.range len).map (fun i =>
        let x := sampleAt data i
        -- Fade in: i < min(fadeInSamples, data.length), and i < len already
        let x := if (i : ℚ) < fadeInSamples then x * (i / fadeInSamples) else x
        if fadeOutStart.den = 1 ∧ fadeOutStart ≤ (i : ℚ) then
          x * (1 - ((i : ℚ) - fadeOutStart) / fadeOutSamples)
        else x)) }

/-- `destData.set(sourceData, offset)` on a `Float32Array`; every use
below satisfies `offset + src.length ≤ dest.length`. -/
def setAt (dest src : List ℚ) (offset : ℕ) : List ℚ :=
  dest.take offset ++ src ++ dest.drop (offset + src.length)

/-- One iteration of the inner channel loop of
`AudioService.concatenateBuffers` (AudioService.js:92-97): read
`buffer.getChannelData(channel)` (throws when `channel` is out of range)
and copy it into the combined buffer at `offset`. -/
def copyChannelsAux (buffer : AudioBuffer) (offset : ℕ) :
    List ℕ → AudioBuffer → Except String AudioBuffer
  | [], combined => .ok combined
  | channel :: rest, combined =>
    match buffer.chans.get? channel with
    | none => .error "IndexSizeError: channel index out of range"
    | some sourceData =>
      let dest := combined.chans.getD channel []
      copyChannelsAux buffer offset rest
        { combined with chans := combined.chans.set channel (setAt dest sourceData offset) }

/-- The outer buffer loop of `AudioService.concatenateBuffers`
(AudioService.js:91-99), threading the write offset; a thrown channel
error propagates. -/
def concatLoop (numChannels : ℕ) :
    List AudioBuffer → AudioBuffer → ℕ → Except String AudioBuffer
  | [], combined, _ => .ok combined
  | buffer :: rest, combined, offset =>
    match copyChannelsAux buffer offset (List.range numChannels) combined with
    | .error e => .error e
    | .ok combined' => concatLoop numChannels rest combined' (offset + buffer.length)

/-- `AudioService.concatenateBuffers(buffers)` (AudioService.js:68-102). -/
def concatenateBuffers (buffers : List AudioBuffer) : Except String AudioBuffer :=
  match buffers with
  | [] => .error "No buffers to concatenate"
  | first :: _ =>
    let numChannels := first.numberOfChannels
    let totalLength := (buffers.map AudioBuffer.length).sum
    concatLoop numChannels buffers
      (createBuffer numChannels totalLength first.sampleRate) 0

end AudioService

/-- Sample `i` of channel `c` of a buffer. -/
def AudioBuffer.sample (b : AudioBuffer) (c i : ℕ) : ℚ :=
  sampleAt (b.chans.getD c []) i

/-! ## Phrase parser (src/scripts/utils/parser.js) -/

/-- One parsed phrase: `{ phrase, duration }`. -/
structure Phrase where
  phrase : String
  duration : ℚ
  deriving Repr, DecidableEq

/-- The JavaScript regex `\s` class (= the `String.prototype.trim`
character set): ASCII whitespace, NBSP, and the Unicode space/line
separators. -/
def isJsWS (c : Char) : Bool :=
  c == '\t' || c == '\n' || c == '\u000b' || c == '\u000c' || c == '\r' ||
  c == ' ' || c == '\u00a0' || c == '\u1680' ||
  (decide ('\u2000' ≤ c) && decide (c ≤ '\u200a')) ||
  c == '\u2028' || c == '\u2029' || c == '\u202f' || c == '\u205f' ||
  c == '\u3000' || c == '\ufeff'

/-- A character the JavaScript regex `.` (no `s` flag) can match: anything
but a LineTerminator.  `\r`, U+2028 and U+2029 can appear inside a line
(splitting is on `\n` only), and `(.+?)` cannot step over them. -/
def isDotMatchable (c : Char) : Bool :=
  !(c == '\n' || c == '\r' || c == '\u2028' || c == '\u2029')

/-- JavaScript `String.prototype.trim` (strip leading and trailing
whitespace), implemented structurally so that it evaluates. -/
def jsTrim (s : String) : String :=
  String.mk (((s.data.dropWhile isJsWS).reverse.dropWhile isJsWS).reverse)

/-- JavaScript `String.prototype.split('\n')`. -/
def splitNl : List Char → List (List Char)
  | [] => [[]]
  | c :: rest =>
    match splitNl rest with
    | [] => [[]]
    | l :: ls => if c = '\n' then [] :: l :: ls else (c :: l) :: ls

/-- Value of the numeral captured by `(\d+(?:\.\d+)?)`, as `parseFloat`
reads it: integer digits `d1`, fractional digits `d2` (empty when the
fractional part is absent). -/
def digitsToNat (ds : List Char) : ℕ :=
  ds.foldl (fun n c => 10 * n + (c.toNat - 48)) 0

/-- `parseFloat` of the matched numeral. -/
def decimalValue (d1 d2 : List Char) : ℚ :=
  (digitsToNat d1 : ℚ) + (digitsToNat d2 : ℚ) / 10 ^ d2.length

/-- Matching of the line remainder after the optional `;` against
`\s*(\d+(?:\.\d+)?)?\s*$` (parser.js:21).  Result: `none` = no match,
`some none` = match with the duration group unmatched, `some (some
(d1, d2))` = match capturing the numeral `d1[.d2]`.  Backtracking of the
original regex is accounted for: when the fractional part fails or
trailing characters remain, no alternative split of `\d+(\.\d+)?` can
succeed because the leftover would have to satisfy `\s*$`. -/
def tailMatch (cs : List Char) : Option (Option (List Char × List Char)) :=
  if (cs.dropWhile isJsWS).isEmpty then some none
  else if ((cs.dropWhile isJsWS).takeWhile Char.isDigit).isEmpty then none
  else
    match (cs.dropWhile isJsWS).dropWhile Char.isDigit with
    | [] => some (some ((cs.dropWhile isJsWS).takeWhile Char.isDigit, []))
    | c :: t =>
      if c = '.' then
        if (t.takeWhile Char.isDigit).isEmpty then none
        else if (t.dropWhile Char.isDigit).all isJsWS then
          some (some ((cs.dropWhile isJsWS).takeWhile Char.isDigit,
            t.takeWhile Char.isDigit))
        else none
      else if (c :: t).all isJsWS then
        some (some ((cs.dropWhile isJsWS).takeWhile Char.isDigit, []))
      else none

/-- Position taken by the lazy group `(.+?)` of
`^(.+?)(?:;\s*(\d+(?:\.\d+)?)?\s*)?$`: the first position `p ≥ 1` holding
a `;`, reachable by `.` (every earlier character dot-matchable), whose
remainder matches `tailMatch`; when there is none the group must swallow
the whole line, which succeeds only if the whole line is
dot-matchable. -/
def semiSplit (cs : List Char) : Option ℕ :=
  ((List.range cs.length).filter (fun p =>
    decide (1 ≤ p) && decide (cs.getD p ' ' = ';') &&
      (cs.take p).all isDotMatchable &&
      (tailMatch (cs.drop (p+1))).isSome)).head?

/-- `phraseRaw.replace(/;\s*$/, '')` (parser.js:30): drop one trailing
semicolon (and any whitespace after it). -/
def stripTrailingSemiWs (cs : List Char) : List Char :=
  match cs.reverse.dropWhile isJsWS with
  | ';' :: r => r.reverse
  | _ => cs

/-- Parse one non-blank trimmed line (parser.js:21-35).  A line the regex
cannot match — one whose characters `(.+?)` cannot swallow, i.e. a line
holding a carriage return or U+2028/U+2029 outside a valid `;` tail —
throws `Invalid line format` (parser.js:23-25); otherwise an absent
duration defaults to 0. -/
def parseLine (t : String) : Except String Phrase :=
  let cs := t.data
  match semiSplit cs with
  | some p =>
    .ok { phrase := jsTrim (String.mk (stripTrailingSemiWs (cs.take p)))
          duration :=
            match tailMatch (cs.drop (p+1)) with
            | some (some (d1, d2)) => decimalValue d1 d2
            | _ => 0 }
  | none =>
    if cs.all isDotMatchable then
      .ok { phrase := jsTrim (String.mk (stripTrailingSemiWs cs)), duration := 0 }
    else
      .error ("Invalid line format: \"" ++ t ++ "\"")

/-- The line loop of `parseTextFile` (parser.js:15-36): trim, skip blank
lines (`continue`), parse the rest in order; a thrown line error aborts
the loop. -/
def processLines : List String → Except String (List Phrase)
  | [] => .ok []
  | l :: ls =>
    let t := jsTrim l
    if t = "" then processLines ls
    else
      match parseLine t with
      | .error e => .error e
      | .ok ph =>
        match processLines ls with
        | .error e => .error e
        | .ok rest => .ok (ph :: rest)

/-- `parseTextFile(content)` (parser.js:7-43). -/
def parseTextFile (content : String) : Except String (List Phrase) :=
  if content = "" then .error "Content must be a non-empty string"
  else
    match processLines ((splitNl (jsTrim content).data).map String.mk) with
    | .error e => .error e
    | .ok phrases =>
      if phrases = [] then .error "No valid phrases found in file"
      else .ok phrases

/-! ## WAV encoder (AudioService.audioBufferToWav) -/

/-- `view.setUint16(off, n, true)`: two little-endian bytes (the DataView
write wraps the value modulo 2^16). -/
def u16le (n : ℕ) : List ℕ := [n % 256, n / 256 % 256]

/-- `view.setUint32(off, n, true)`: four little-endian bytes. -/
def u32le (n : ℕ) : List ℕ :=
  [n % 256, n / 256 % 256, n / 65536 % 256, n / 16777216 % 256]

/-- JavaScript `ToIntegerOrInfinity`: truncation toward zero, applied by
`setInt16` to a non-integral number. -/
def jsTrunc (q : ℚ) : ℤ := if q < 0 then -⌊-q⌋ else ⌊q⌋

/-- `view.setInt16(off, v, true)`: the value wrapped to 16-bit two's
complement, as two little-endian bytes. -/
def i16le (v : ℤ) : List ℕ := u16le ((v % 65536).toNat)

/-- The sample conversion of `audioBufferToWav` (AudioService.js:234-235):
clamp to `[-1, 1]`, then scale negatives by `0x8000` and non-negatives by
`0x7fff`. -/
def sampleToInt16 (s : ℚ) : ℤ :=
  let sample := max (-1) (min 1 s)
  jsTrunc (if sample < 0 then sample * 0x8000 else sample * 0x7fff)

/-- ASCII codes written by `writeString`. -/
def asciiCodes (s : String) : List ℕ := s.data.map Char.toNat

/-- The interleaved sample bytes for frame `i`: one 16-bit sample per
channel (AudioService.js:231-239). -/
def wavFrame (chans : List (List ℚ)) (numChannels i : ℕ) : List ℕ :=
  ((List.range numChannels).map (fun channel =>
    i16le (sampleToInt16 (sampleAt (chans.getD channel []) i)))).flatten

/-- The 44-byte header written at offsets 0-43 (AudioService.js:215-228):
RIFF/WAVE, `fmt ` chunk of size 16 with format tag 1 (PCM), the channel
count, sample rate, byte rate, block align, bit depth 16, and the `data`
chunk header. -/
def wavHeader (numChannels sampleRate dataLength : ℕ) : List ℕ :=
  asciiCodes "RIFF" ++ u32le (36 + dataLength) ++ asciiCodes "WAVE"
    ++ asciiCodes "fmt " ++ u32le 16 ++ u16le 1 ++ u16le numChannels
    ++ u32le sampleRate ++ u32le (sampleRate * (numChannels * 2))
    ++ u16le (numChannels * 2) ++ u16le 16 ++ asciiCodes "data"
    ++ u32le dataLength

/-- `AudioService.audioBufferToWav(buffer)` (AudioService.js:196-242).
The DataView writes are at strictly consecutive offsets (0, 4, 8, 12, 16,
20, 22, 24, 28, 32, 34, 36, 40, then 44 + 2 bytes per sample), so the
resulting `ArrayBuffer` is exactly this concatenation.
`samplesPerChannel` is `data[0].length` as in the source. -/
def audioBufferToWav (buffer : AudioBuffer) : List ℕ :=
  let numChannels := buffer.numberOfChannels
  let samplesPerChannel := (buffer.chans.headD []).length
  let dataLength := samplesPerChannel * numChannels * 2
  wavHeader numChannels buffer.sampleRate dataLength
    ++ ((List.range samplesPerChannel).map
        (wavFrame buffer.chans numChannels)).flatten

/-! ## MP3 encoder (AudioService.audioBufferToMP3) -/

/-- `AudioService.floatTo16BitPCM(input)` (AudioService.js:342-349):
clamp to `[-1, 1]`, scale negatives by `0x8000` and non-negatives by
`0x7FFF` (the `Int16Array` store truncates; the scaled values are already
within 16-bit range). -/
def floatTo16BitPCM (input : List ℚ) : List ℤ :=
  input.map (fun v =>
    let s := max (-1) (min 1 v)
    jsTrunc (if s < 0 then s * 0x8000 else s * 0x7FFF))

/-- The frame loop of `audioBufferToMP3` (AudioService.js:284-316) over
the list of block indices.  `cancelledAt k` is the value of
`this.encodingCancelled` observed by the check at the start of iteration
`k` (the flag is set externally by `cancelEncoding()` between the loop's
yield points); `step` is the abstract `lamejs` per-chunk encode call,
whose non-empty outputs are accumulated in order.  Progress reporting and
the UI yield do not affect the result and are not modelled. -/
def mp3EncodeBlocks {σ : Type} (cancelledAt : ℕ → Bool)
    (step : σ → ℕ → σ × List ℤ) :
    List ℕ → σ → List (List ℤ) → Except String (σ × List (List ℤ))
  | [], st, acc => .ok (st, acc)
  | k :: ks, st, acc =>
    if cancelledAt k then .error "MP3 encoding cancelled by user"
    else
      let out := step st k
      mp3EncodeBlocks cancelledAt step ks out.1
        (if out.2.length > 0 then acc ++ [out.2] else acc)

/-- The per-iteration encode call (AudioService.js:290-299): slice the
1152-sample chunks and push them through `encodeBuffer`, mono or
stereo. -/
def mp3Step {σ : Type} (encodeMono : σ → List ℤ → σ × List ℤ)
    (encodeStereo : σ → List ℤ → List ℤ → σ × List ℤ)
    (numChannels : ℕ) (left right : List ℤ) : σ → ℕ → σ × List ℤ :=
  fun st k =>
    let leftChunk := (left.drop (k * 1152)).take 1152
    let rightChunk := (right.drop (k * 1152)).take 1152
    if numChannels = 1 then encodeMono st leftChunk
    else encodeStereo st leftChunk rightChunk

/-- `AudioService.audioBufferToMP3(buffer, bitrate, onProgress)`
(AudioService.js:259-335).  The `lamejs` encoder is abstract: `init` is
the state of `new lamejs.Mp3Encoder(...)`, `encodeMono`/`encodeStereo`
are `encodeBuffer` on the 1152-sample chunks, `flush` drains the
remainder.  The result is the ordered list of encoded chunks (the
`mp3Data` array that becomes the Blob). -/
def audioBufferToMP3 {σ : Type} (lameAvailable : Bool)
    (init : σ) (encodeMono : σ → List ℤ → σ × List ℤ)
    (encodeStereo : σ → List ℤ → List ℤ → σ × List ℤ)
    (flush : σ → List ℤ) (cancelledAt : ℕ → Bool)
    (buffer : AudioBuffer) : Except String (List (List ℤ)) :=
  if lameAvailable = false then
    .error "MP3 encoder not available. Please check your internet connection and reload the page."
  else
    let samples := buffer.length
    let numChannels := buffer.numberOfChannels
    let left := floatTo16BitPCM (buffer.chans.getD 0 [])
    let right := floatTo16BitPCM (buffer.chans.getD 1 [])
    let blockSize := 1152
    let totalBlocks := (samples + blockSize - 1) / blockSize
    match mp3EncodeBlocks cancelledAt
        (mp3Step encodeMono encodeStereo numChannels left right)
        (List.range totalBlocks) init [] with
    | .error e => .error e
    | .ok (st, acc) =>
      -- Check for cancellation before flush
      if cancelledAt totalBlocks then .error "MP3 encoding cancelled by user"
      else
        let mp3buf := flush st
        .ok (if mp3buf.length > 0 then acc ++ [mp3buf] else acc)

/-! ## OpenAI TTS adapter (src/unnamed/part_011, OpenAITTSAdapter) -/

/-- An HTTP response as `generateSpeech` consumes it: `ok` is the 2xx
flag, `body` the payload bytes of `response.blob()`, and `errorMessage`
the provider message the non-ok branch resolves (the structured-JSON
parse with raw-text fallback of part_011:157-166 is abstracted into this
field). -/
structure FetchResponse where
  ok : Bool
  body : List ℕ
  errorMessage : String

/-- The options record of `generateSpeech`; `voice`, `model`, `speed` and
`format` only shape the request body and the MIME tag, `duration` feeds
the silence branch. -/
structure OpenAITTSOptions where
  voice : Option String := none
  model : Option String := none
  speed : Option ℚ := none
  format : Option String := none
  duration : Option ℚ := none

/-- `OpenAITTSAdapter.generateSilence(duration)` (part_011:201-219):
a mono 24 kHz silent buffer of `floor(24000 × duration)` samples encoded
with the adapter's own (identical) `audioBufferToWav`. -/
def generateSilence (duration : ℚ) : List ℕ :=
  audioBufferToWav (createBuffer 1 ((⌊(24000 : ℚ) * duration⌋).toNat) 24000)

/-- `OpenAITTSAdapter.generateSpeech(text, options)` (part_011:128-177),
with the network abstracted as the sequence `responses` of answers fetch
would produce for consecutive requests.  Result: the produced audio bytes
(or the thrown error message) paired with the number of requests issued.
The body bytes are re-wrapped in a Blob with an explicit MIME type, which
leaves them unchanged. -/
def generateSpeech (apiKey : Option String) (text : String)
    (options : OpenAITTSOptions) (responses : ℕ → FetchResponse) :
    Except String (List ℕ) × ℕ :=
  match apiKey with
  | none => (.error "API key required for OpenAI TTS", 0)
  | some _ =>
    if text = "" ∨ text = "*" then
      -- `options.duration || 1`: absent *or zero* duration falls back to 1 s
      (.ok (generateSilence
        (match options.duration with
          | none => 1
          | some d => if d = 0 then 1 else d)), 0)
    else
      let response := responses 0
      if response.ok = false then
        (.error ("OpenAI TTS API error: " ++ response.errorMessage), 1)
      else
        (.ok response.body, 1)

/-! ## TTS cache (src/scripts/services/TTSCacheService.js) -/

/-- A primitive JSON value as it appears in a TTS options object.  The
app's options hold strings and numbers; numbers are restricted to
integral values (as all the app's option values are), which
`JSON.stringify` prints without a decimal point (`1.0` → `1`). -/
inductive JsonValue
  | str (s : String)
  | int (n : ℤ)
  deriving Repr, DecidableEq

/-- `JSON.stringify` of a primitive value.  The app's option strings
contain no characters needing escapes. -/
def JsonValue.serialize : JsonValue → String
  | .str s => "\"" ++ s ++ "\""
  | .int n => toString n

/-- UTF-16 code units of a string, as `charCodeAt` enumerates them
(code points beyond the BMP split into surrogate pairs). -/
def utf16CodeUnits (s : String) : List ℕ :=
  s.data.foldr (fun c acc =>
    let n := c.toNat
    if n < 0x10000 then n :: acc
    else (0xD800 + (n - 0x10000) / 0x400) :: (0xDC00 + (n - 0x10000) % 0x400) :: acc) []

/-- Wrap to a signed 32-bit integer (the effect of `<<` and `&` on a JS
number). -/
def toInt32 (n : ℤ) : ℤ := (n + 2^31) % 2^32 - 2^31

/-- One step of the hash loop (TTSCacheService.js:54-58):
`hash = ((hash << 5) - hash) + char; hash = hash & hash`.  The
intermediate `(hash << 5) - hash + char` is exact in binary64 (its
magnitude is below `2^34`), and `& ` wraps it to 32 bits. -/
def hashStep (hash : ℤ) (char : ℕ) : ℤ :=
  toInt32 (toInt32 (hash * 32) - hash + char)

/-- The string hash of `TTSCacheService.generateKey`. -/
def jsHash (s : String) : ℤ := (utf16CodeUnits s).foldl hashStep 0

/-- Digit character of `Number.prototype.toString(36)`:
`0-9` then `a-z`. -/
def base36Digit (d : ℕ) : Char :=
  if d < 10 then Char.ofNat (48 + d) else Char.ofNat (87 + d)

/-- Base-36 digits of `n`, most significant first; structured with a fuel
argument (always sufficient at `n + 1`, since the argument shrinks by a
factor of 36 each step) in the style of core's `Nat.toDigitsCore`. -/
def natToBase36Core : ℕ → ℕ → List Char
  | 0, _ => []
  | fuel + 1, n =>
    if n < 36 then [base36Digit n]
    else natToBase36Core fuel (n / 36) ++ [base36Digit (n % 36)]

/-- `n.toString(36)` for a natural number. -/
def natToBase36 (n : ℕ) : String := String.mk (natToBase36Core (n + 1) n)

/-- Lexicographic comparison of character lists, structurally (so that it
evaluates): the order JS string comparison uses, which on BMP strings
(all of the app's keys) coincides with UTF-16 code-unit order. -/
def charListLe : List Char → List Char → Bool
  | [], _ => true
  | _ :: _, [] => false
  | a :: as, b :: bs => if a < b then true else if b < a then false else charListLe as bs

/-- JS string `≤` (the effect of the default-free comparator contract
`Array.prototype.sort` applies through `<`/`>` on strings). -/
def jsStrLeRel (a b : String) : Prop := charListLe a.data b.data = true

instance : DecidableRel jsStrLeRel := by
  unfold jsStrLeRel; infer_instance

lemma charListLe_total (a b : List Char) :
    charListLe a b = true ∨ charListLe b a = true := by
  induction a generalizing b with
  | nil => exact Or.inl rfl
  | cons x xs ih =>
    cases b with
    | nil => exact Or.inr rfl
    | cons y ys =>
      rcases lt_trichotomy x y with h | h | h
      · left; unfold charListLe; rw [if_pos h]
      · subst h
        rcases ih ys with h' | h'
        · left; unfold charListLe; rw [if_neg (lt_irrefl x), if_neg (lt_irrefl x)]; exact h'
        · right; unfold charListLe; rw [if_neg (lt_irrefl x), if_neg (lt_irrefl x)]; exact h'
      · right; unfold charListLe; rw [if_pos h]

lemma charListLe_trans : ∀ a b c : List Char, charListLe a b = true →
    charListLe b c = true → charListLe a c = true := by
  intro a
  induction a with
  | nil => intro b c _ _; rfl
  | cons x xs ih =>
    intro b c h1 h2
    cases b with
    | nil => cases h1
    | cons y ys =>
      cases c with
      | nil => cases h2
      | cons z zs =>
        unfold charListLe at h1 h2 ⊢
        by_cases hxy : x < y
        · rw [if_pos hxy] at h1
          by_cases hyz : y < z
          · rw [if_pos (hxy.trans hyz)]
          · rw [if_neg hyz] at h2
            by_cases hzy : z < y
            · rw [if_pos hzy] at h2; cases h2
            · have : y = z := by
                rcases lt_trichotomy y z with h | h | h
                · exact absurd h hyz
                · exact h
                · exact absurd h hzy
              rw [if_pos (this ▸ hxy)]
        · rw [if_neg hxy] at h1
          by_cases hyx : y < x
          · rw [if_pos hyx] at h1; cases h1
          · rw [if_neg hyx] at h1
            have hxy' : x = y := by
              rcases lt_trichotomy x y with h | h | h
              · exact absurd h hxy
              · exact h
              · exact absurd h hyx
            subst hxy'
            by_cases hxz : x < z
            · rw [if_pos hxz]
            · rw [if_neg hxz] at h2 ⊢
              by_cases hzx : z < x
              · rw [if_pos hzx] at h2; cases h2
              · rw [if_neg hzx] at h2 ⊢
                exact ih ys zs h1 h2

lemma charListLe_antisymm : ∀ a b : List Char, charListLe a b = true →
    charListLe b a = true → a = b := by
  intro a
  induction a with
  | nil => intro b _ h2; cases b with
    | nil => rfl
    | cons y ys => cases h2
  | cons x xs ih =>
    intro b h1 h2
    cases b with
    | nil => cases h1
    | cons y ys =>
      unfold charListLe at h1 h2
      by_cases hxy : x < y
      · rw [if_neg (lt_asymm hxy), if_pos hxy] at h2; cases h2
      · rw [if_neg hxy] at h1
        by_cases hyx : y < x
        · rw [if_pos hyx] at h1; cases h1
        · rw [if_neg hyx] at h1
          rw [if_neg hyx, if_neg hxy] at h2
          have : x = y := by
            rcases lt_trichotomy x y with h | h | h
            · exact absurd h hxy
            · exact h
            · exact absurd h hyx
          rw [this, ih ys h1 h2]

instance : IsTotal String jsStrLeRel :=
  ⟨fun a b => charListLe_total a.data b.data⟩

instance : IsTrans String jsStrLeRel :=
  ⟨fun a b c => charListLe_trans a.data b.data c.data⟩

instance : IsAntisymm String jsStrLeRel where
  antisymm a b h1 h2 := by
    cases a; cases b
    exact congrArg String.mk (charListLe_antisymm _ _ h1 h2)

/-- `TTSCacheService.generateKey(text, engine, options)`
(TTSCacheService.js:47-61).  `JSON.stringify(options,
Object.keys(options).sort())` serializes the option properties in the
order of the sorted-key replacer array; `Array.prototype.sort` compares
strings by UTF-16 code units, which for the app's ASCII keys coincides
with the character order used here.  Options are modelled as a key/value
association list (a JS object: keys unique, order = insertion order). -/
def generateKey (text engine : String)
    (options : List (String × JsonValue)) : String :=
  let sortedKeys := List.insertionSort jsStrLeRel (options.map Prod.fst)
  let optionsStr := "\x7b" ++ String.intercalate ","
      (sortedKeys.filterMap (fun k =>
        (options.lookup k).map (fun v => "\"" ++ k ++ "\":" ++ v.serialize)))
    ++ "\x7d"
  let combined := engine ++ ":" ++ text ++ ":" ++ optionsStr
  "tts_" ++ natToBase36 (jsHash combined).natAbs

/-- A cached snippet's metadata, as `pruneCache` uses it (the stored
record also carries the text preview, engine, options and audio blob,
which pruning never reads). -/
structure CacheEntry where
  key : String
  timestamp : ℕ
  size : ℕ
  deriving Repr, DecidableEq

/-- Total stored size (`getStats().totalSize`). -/
def totalSize (entries : List CacheEntry) : ℕ :=
  (entries.map CacheEntry.size).sum

/-- `this.maxCacheSizeMB * 1024 * 1024` with `maxCacheSizeMB = 100`. -/
def maxCacheBytes : ℕ := 100 * 1024 * 1024

/-- `this.maxCacheSizeMB * 0.8 * 1024 * 1024`; `100 * 0.8` is exactly 80
in binary64, so the target is exactly 83886080. -/
def targetCacheBytes : ℕ := 83886080

/-- Order of the IndexedDB cursor over the `timestamp` index: ascending
timestamp, ties by ascending primary key. -/
def entryLE (a b : CacheEntry) : Prop :=
  a.timestamp < b.timestamp ∨
    (a.timestamp = b.timestamp ∧ jsStrLeRel a.key b.key)

instance : DecidableRel entryLE := by
  unfold entryLE; infer_instance

instance : IsTotal CacheEntry entryLE where
  total a b := by
    unfold entryLE
    rcases lt_trichotomy a.timestamp b.timestamp with h | h | h
    · exact Or.inl (Or.inl h)
    · rcases charListLe_total a.key.data b.key.data with hk | hk
      · exact Or.inl (Or.inr ⟨h, hk⟩)
      · exact Or.inr (Or.inr ⟨h.symm, hk⟩)
    · exact Or.inr (Or.inl h)

instance : IsTrans CacheEntry entryLE where
  trans a b c hab hbc := by
    unfold entryLE at *
    rcases hab with h1 | ⟨h1, hk1⟩ <;> rcases hbc with h2 | ⟨h2, hk2⟩
    · exact Or.inl (h1.trans h2)
    · exact Or.inl (h2 ▸ h1)
    · exact Or.inl (h1 ▸ h2)
    · exact Or.inr ⟨h1.trans h2, charListLe_trans _ _ _ hk1 hk2⟩

/-- The cursor loop of `pruneCache` (TTSCacheService.js:203-209): walk
the entries in `entryLE` order, collecting keys to delete while the
running size exceeds the target. -/
def pruneScan : List CacheEntry → ℕ → List String
  | [], _ => []
  | e :: rest, currentSize =>
    if currentSize > targetCacheBytes then
      e.key :: pruneScan rest (currentSize - e.size)
    else []

/-- `TTSCacheService.pruneCache()` (TTSCacheService.js:182-220) acting on
the store contents: return early while `totalSize < maxCacheBytes`,
otherwise delete the collected oldest keys. -/
def pruneCache (entries : List CacheEntry) : List CacheEntry :=
  if totalSize entries < maxCacheBytes then entries
  else
    let sorted := List.insertionSort entryLE entries
    let toDelete := pruneScan sorted (totalSize entries)
    entries.filter (fun e => decide (e.key ∉ toDelete))

end Apg

namespace Apg

lemma getD_map_range {α : Type} (n : ℕ) (f : ℕ → α) (c : ℕ) (hc : c < n) (d : α) :
    ((List.range n).map f).getD c d = f c := by
  rw [List.getD_eq_getElem?_getD, List.getElem?_map, List.getElem?_range hc]
  rfl

lemma sampleAt_map_range (n : ℕ) (g : ℕ → ℚ) (i : ℕ) (h : i < n) :
    sampleAt ((List.range n).map g) i = g i :=
  getD_map_range n g i h 0

lemma getD_mem_of_lt {α : Type} (l : List α) (k : ℕ) (hk : k < l.length) (d : α) :
    l.getD k d ∈ l := by
  rw [List.getD_eq_getElem?_getD, List.getElem?_eq_getElem hk]
  exact List.getElem_mem hk

lemma getD_map_of_lt {α β : Type} (l : List α) (f : α → β) (k : ℕ) (hk : k < l.length)
    (d : β) (d' : α) : (l.map f).getD k d = f (l.getD k d') := by
  rw [List.getD_eq_getElem?_getD, List.getElem?_map, List.getElem?_eq_getElem hk,
    List.getD_eq_getElem?_getD, List.getElem?_eq_getElem hk]
  rfl

/-- **C9 (counterexample).** The claim says `createSilence` returns
`round(sampleRate × durationSeconds)` samples; at sample rate 1000 and
duration 3/2000 s the product is 1.5, the code's `Math.floor` gives 1 but
`round` gives 2. -/
theorem createSilence_round_counterexample :
    ((AudioService.createSilence 1000 (3/2000)).length : ℤ) ≠
      round ((1000 : ℚ) * (3/2000)) := by
  have h1 : (1000 : ℚ) * (3/2000) = 3/2 := by norm_num
  have hfloor : ⌊(3/2 : ℚ)⌋ = 1 := by
    rw [Int.floor_eq_iff]
    norm_num
  have hround : round ((3:ℚ)/2) = 2 := by
    rw [round_eq, show (3/2 + 1/2 : ℚ) = ((2:ℤ) : ℚ) by norm_num, Int.floor_intCast]
  simp only [AudioService.createSilence, createBuffer, h1, hfloor, hround]
  norm_num

/-- **C9 (amended).** For every `durationSeconds ≥ 0`, `createSilence`
returns a mono buffer of `⌊sampleRate × durationSeconds⌋` (floor, not
round) samples, all zero. -/
theorem createSilence_spec (sampleRate : ℕ) (duration : ℚ) (h : 0 ≤ duration) :
    (AudioService.createSilence sampleRate duration).numberOfChannels = 1 ∧
    ((AudioService.createSilence sampleRate duration).length : ℤ) =
      ⌊(sampleRate : ℚ) * duration⌋ ∧
    ∀ d ∈ (AudioService.createSilence sampleRate duration).chans, ∀ x ∈ d, x = 0 := by
  refine ⟨rfl, ?_, ?_⟩
  · have h0 : (0 : ℚ) ≤ (sampleRate : ℚ) * duration :=
      mul_nonneg (by positivity) h
    exact Int.toNat_of_nonneg (Int.floor_nonneg.mpr h0)
  · intro d hd x hx
    simp only [AudioService.createSilence, createBuffer, List.mem_replicate] at hd
    rw [hd.2] at hx
    exact (List.eq_of_mem_replicate hx)

/-- Closed-form witness for `createSilence_spec` at sample rate 44100 and
duration 2 s. -/
theorem createSilence_spec_witness :
    (AudioService.createSilence 44100 2).numberOfChannels = 1 ∧
    ((AudioService.createSilence 44100 2).length : ℤ) = ⌊(44100 : ℚ) * 2⌋ ∧
    ∀ d ∈ (AudioService.createSilence 44100 2).chans, ∀ x ∈ d, x = 0 :=
  createSilence_spec 44100 2 (by norm_num)

lemma copyChannelsAux_isOk_iff (buffer : AudioBuffer) (offset : ℕ) :
    ∀ (chs : List ℕ) (combined : AudioBuffer),
      (∃ out, AudioService.copyChannelsAux buffer offset chs combined = .ok out) ↔
        ∀ ch ∈ chs, ch < buffer.numberOfChannels := by
  intro chs
  induction chs with
  | nil => intro c; simp [AudioService.copyChannelsAux]
  | cons ch rest ih =>
    intro c
    rw [List.forall_mem_cons]
    cases h : buffer.chans.get? ch with
    | none =>
      have hlen : buffer.numberOfChannels ≤ ch := List.get?_eq_none.mp h
      simp only [AudioService.copyChannelsAux, h]
      constructor
      · rintro ⟨out, hout⟩; cases hout
      · intro hall; omega
    | some src =>
      have hlen : ch < buffer.numberOfChannels := by
        show ch < buffer.chans.length
        by_contra hge
        rw [List.get?_eq_none.mpr (by omega)] at h
        cases h
      simp only [AudioService.copyChannelsAux, h]
      rw [ih]
      simp [hlen]

lemma concatLoop_isOk_iff (n : ℕ) :
    ∀ (bs : List AudioBuffer) (combined : AudioBuffer) (offset : ℕ),
      (∃ out, AudioService.concatLoop n bs combined offset = .ok out) ↔
        ∀ b ∈ bs, n ≤ b.numberOfChannels := by
  intro bs
  induction bs with
  | nil => intro c off; simp [AudioService.concatLoop]
  | cons b rest ih =>
    intro c off
    rw [List.forall_mem_cons]
    have hrange : (∀ ch ∈ List.range n, ch < b.numberOfChannels) ↔
        n ≤ b.numberOfChannels := by
      simp only [List.mem_range]
      constructor
      · intro hall
        rcases Nat.eq_zero_or_pos n with h0 | h0
        · omega
        · have := hall (n - 1) (by omega); omega
      · intro hle ch hch; omega
    cases h : AudioService.copyChannelsAux b off (List.range n) c with
    | error e =>
      have hno : ¬ n ≤ b.numberOfChannels := by
        rw [← hrange]
        intro hall
        obtain ⟨out, hout⟩ := (copyChannelsAux_isOk_iff b off (List.range n) c).mpr hall
        rw [h] at hout; cases hout
      simp only [AudioService.concatLoop, h]
      constructor
      · rintro ⟨out, hout⟩; cases hout
      · intro hall; exact absurd hall.1 hno
    | ok c' =>
      have hok : n ≤ b.numberOfChannels := by
        rw [← hrange]
        exact (copyChannelsAux_isOk_iff b off (List.range n) c).mp ⟨c', h⟩
      simp only [AudioService.concatLoop, h]
      rw [ih c' (off + b.length)]
      simp [hok]

/-- **C10.** `concatenateBuffers` takes its channel count from the first
buffer and reads that many channels from every buffer in the list; it
succeeds exactly when every buffer has at least as many channels as the
first one, and fails (out-of-range channel access) whenever some later
buffer has fewer channels. -/
theorem concatenateBuffers_channel_precondition (first : AudioBuffer)
    (rest : List AudioBuffer) :
    (∃ out, AudioService.concatenateBuffers (first :: rest) = .ok out) ↔
      ∀ b ∈ first :: rest, first.numberOfChannels ≤ b.numberOfChannels := by
  simp only [AudioService.concatenateBuffers]
  exact concatLoop_isOk_iff _ _ _ _

/-- **C1.** `mixBuffers` returns a buffer whose per-channel length equals
the primary buffer's length; every output sample is the primary sample at
`i` plus the background sample at `i mod backgroundLength` scaled by the
linear attenuation factor (the source computes it as
`Math.pow(10, attenuationDb / 20)` with `attenuationDb` defaulting to 0),
with no clipping or normalization after summation; channel indices are
clamped to each buffer's channel count. -/
theorem mixBuffers_spec (b1 b2 : AudioBuffer) (g : ℚ)
    (h2 : b2.WF) (hc1 : 1 ≤ b1.numberOfChannels) (hc2 : 1 ≤ b2.numberOfChannels)
    (hl2 : 0 < b2.length) :
    (AudioService.mixBuffers b1 b2 g).length = b1.length ∧
    (AudioService.mixBuffers b1 b2 g).numberOfChannels =
      max b1.numberOfChannels b2.numberOfChannels ∧
    (∀ d ∈ (AudioService.mixBuffers b1 b2 g).chans, d.length = b1.length) ∧
    ∀ c < max b1.numberOfChannels b2.numberOfChannels, ∀ i < b1.length,
      (AudioService.mixBuffers b1 b2 g).sample c i =
        b1.sample (min c (b1.numberOfChannels - 1)) i
          + b2.sample (min c (b2.numberOfChannels - 1)) (i % b2.length) * g := by
  refine ⟨rfl, ?_, ?_, ?_⟩
  · simp [AudioService.mixBuffers, AudioBuffer.numberOfChannels]
  · intro d hd
    simp only [AudioService.mixBuffers, List.mem_map, List.mem_range] at hd
    obtain ⟨c, _, rfl⟩ := hd
    simp
  · intro c hc i hi
    simp only [AudioBuffer.numberOfChannels] at hc hc2
    have hk2 : min c (b2.chans.length - 1) < b2.chans.length := by omega
    unfold AudioBuffer.sample
    simp only [AudioService.mixBuffers, AudioBuffer.numberOfChannels]
    rw [getD_map_range _ _ c hc, sampleAt_map_range _ _ i hi, List.length_map]
    rw [getD_map_of_lt b2.chans _ _ hk2 _ []]
    rw [sampleAt_map_range _ _ i hi]
    have hsrc : (b2.chans.getD (min c (b2.chans.length - 1)) []).length =
        b2.length :=
      h2 _ (getD_mem_of_lt b2.chans _ hk2 [])
    rw [hsrc]

/-- Closed-form witness for `mixBuffers_spec`: a 4-sample mono primary
mixed with a 2-sample mono background at factor 1/2. -/
theorem mixBuffers_spec_witness :
    (AudioService.mixBuffers ⟨10, 4, [[1, 2, 3, 4]]⟩ ⟨10, 2, [[10, 20]]⟩ (1/2)).length =
        (⟨10, 4, [[1, 2, 3, 4]]⟩ : AudioBuffer).length ∧
    (AudioService.mixBuffers ⟨10, 4, [[1, 2, 3, 4]]⟩ ⟨10, 2, [[10, 20]]⟩ (1/2)).numberOfChannels =
      max (⟨10, 4, [[1, 2, 3, 4]]⟩ : AudioBuffer).numberOfChannels
        (⟨10, 2, [[10, 20]]⟩ : AudioBuffer).numberOfChannels ∧
    (∀ d ∈ (AudioService.mixBuffers ⟨10, 4, [[1, 2, 3, 4]]⟩ ⟨10, 2, [[10, 20]]⟩ (1/2)).chans,
        d.length = (⟨10, 4, [[1, 2, 3, 4]]⟩ : AudioBuffer).length) ∧
    ∀ c < max (⟨10, 4, [[1, 2, 3, 4]]⟩ : AudioBuffer).numberOfChannels
        (⟨10, 2, [[10, 20]]⟩ : AudioBuffer).numberOfChannels,
      ∀ i < (⟨10, 4, [[1, 2, 3, 4]]⟩ : AudioBuffer).length,
      (AudioService.mixBuffers ⟨10, 4, [[1, 2, 3, 4]]⟩ ⟨10, 2, [[10, 20]]⟩ (1/2)).sample c i =
        (⟨10, 4, [[1, 2, 3, 4]]⟩ : AudioBuffer).sample
            (min c ((⟨10, 4, [[1, 2, 3, 4]]⟩ : AudioBuffer).numberOfChannels - 1)) i
          + (⟨10, 2, [[10, 20]]⟩ : AudioBuffer).sample
              (min c ((⟨10, 2, [[10, 20]]⟩ : AudioBuffer).numberOfChannels - 1))
              (i % (⟨10, 2, [[10, 20]]⟩ : AudioBuffer).length) * (1/2) :=
  mixBuffers_spec ⟨10, 4, [[1, 2, 3, 4]]⟩ ⟨10, 2, [[10, 20]]⟩ (1/2)
    (by decide) (by decide) (by decide) (by decide)

/-- Per-sample closed form of `applyFades`: the fade-in ramp applies on
`i < fadeInSamples`, and the fade-out ramp applies exactly when
`fadeOutStart = max(0, length - fadeOutSamples)` is a whole number (a
fractional `fadeOutStart` makes the JS loop touch only fractional
`Float32Array` indices, which ignore writes) and `fadeOutStart <= i`. -/
lemma applyFades_sample (b : AudioBuffer) (fadeInMs fadeOutMs : ℚ) (hwf : b.WF)
    (c i : ℕ) (hc : c < b.numberOfChannels) (hi : i < b.length) :
    (AudioService.applyFades b fadeInMs fadeOutMs).sample c i =
      b.sample c i *
        (if (i : ℚ) < fadeInMs / 1000 * b.sampleRate then
          (i : ℚ) / (fadeInMs / 1000 * b.sampleRate) else 1) *
        (if (max 0 ((b.length : ℚ) - fadeOutMs / 1000 * b.sampleRate)).den = 1 ∧
            max 0 ((b.length : ℚ) - fadeOutMs / 1000 * b.sampleRate) ≤ (i : ℚ) then
          1 - ((i : ℚ) - max 0 ((b.length : ℚ) - fadeOutMs / 1000 * b.sampleRate)) /
            (fadeOutMs / 1000 * b.sampleRate)
        else 1) := by
  simp only [AudioBuffer.numberOfChannels] at hc
  have hdl : (b.chans.getD c []).length = b.length :=
    hwf _ (getD_mem_of_lt b.chans c hc [])
  unfold AudioBuffer.sample
  simp only [AudioService.applyFades]
  rw [getD_map_of_lt b.chans _ c hc _ []]
  simp only [hdl]
  rw [sampleAt_map_range _ _ i hi]
  split_ifs with h1 h2 <;> ring

/-- **C8 (amended).** `applyFades` preserves the buffer's structure for
every fade parameter and buffer (it never throws and touches no index
outside a channel).  When the fade-out window start
`max(0, length - fadeOutSamples)` is a whole number of samples, every
sample carries the claimed fade-in and fade-out linear ramps; but when it
is fractional, the fade-out loop counter takes only fractional values,
every write targets a non-existent `Float32Array` index, and the fade-out
is silently skipped: samples carry the fade-in ramp only. -/
theorem applyFades_spec (b : AudioBuffer) (fadeInMs fadeOutMs : ℚ) (hwf : b.WF) :
    (AudioService.applyFades b fadeInMs fadeOutMs).numberOfChannels =
      b.numberOfChannels ∧
    (AudioService.applyFades b fadeInMs fadeOutMs).length = b.length ∧
    (∀ d ∈ (AudioService.applyFades b fadeInMs fadeOutMs).chans,
      d.length = b.length) ∧
    ∀ c < b.numberOfChannels, ∀ i < b.length,
      ((max 0 ((b.length : ℚ) - fadeOutMs / 1000 * b.sampleRate)).den = 1 →
        (AudioService.applyFades b fadeInMs fadeOutMs).sample c i =
          b.sample c i *
            (if (i : ℚ) < fadeInMs / 1000 * b.sampleRate then
              (i : ℚ) / (fadeInMs / 1000 * b.sampleRate) else 1) *
            (if max 0 ((b.length : ℚ) - fadeOutMs / 1000 * b.sampleRate) ≤ (i : ℚ) then
              1 - ((i : ℚ) - max 0 ((b.length : ℚ) - fadeOutMs / 1000 * b.sampleRate)) /
                (fadeOutMs / 1000 * b.sampleRate)
            else 1)) ∧
      ((max 0 ((b.length : ℚ) - fadeOutMs / 1000 * b.sampleRate)).den ≠ 1 →
        (AudioService.applyFades b fadeInMs fadeOutMs).sample c i =
          b.sample c i *
            (if (i : ℚ) < fadeInMs / 1000 * b.sampleRate then
              (i : ℚ) / (fadeInMs / 1000 * b.sampleRate) else 1)) := by
  refine ⟨?_, rfl, ?_, ?_⟩
  · simp [AudioService.applyFades, AudioBuffer.numberOfChannels]
  · intro d hd
    simp only [AudioService.applyFades, List.mem_map] at hd
    obtain ⟨data, hdata, rfl⟩ := hd
    simp [hwf data hdata]
  · intro c hc i hi
    rw [applyFades_sample b fadeInMs fadeOutMs hwf c i hc hi]
    constructor
    · intro hden
      simp only [hden, eq_self_iff_true, true_and]
    · intro hden
      rw [if_neg (show ¬ ((max 0 ((b.length : ℚ) - fadeOutMs / 1000 * b.sampleRate)).den = 1 ∧
            max 0 ((b.length : ℚ) - fadeOutMs / 1000 * b.sampleRate) ≤ (i : ℚ))
          from fun hcontra => hden hcontra.1), mul_one]

/-- Closed-form witness for `applyFades_spec`: a 5-sample constant buffer
at 10 Hz with a 300 ms fade-in (3 samples) and 200 ms fade-out (2 samples,
so the fade-out start `3` is a whole number). -/
theorem applyFades_spec_witness :
    (AudioService.applyFades ⟨10, 5, [[1, 1, 1, 1, 1]]⟩ 300 200).numberOfChannels =
      (⟨10, 5, [[1, 1, 1, 1, 1]]⟩ : AudioBuffer).numberOfChannels ∧
    (AudioService.applyFades ⟨10, 5, [[1, 1, 1, 1, 1]]⟩ 300 200).length =
      (⟨10, 5, [[1, 1, 1, 1, 1]]⟩ : AudioBuffer).length ∧
    (∀ d ∈ (AudioService.applyFades ⟨10, 5, [[1, 1, 1, 1, 1]]⟩ 300 200).chans,
      d.length = (⟨10, 5, [[1, 1, 1, 1, 1]]⟩ : AudioBuffer).length) ∧
    ∀ c < (⟨10, 5, [[1, 1, 1, 1, 1]]⟩ : AudioBuffer).numberOfChannels,
      ∀ i < (⟨10, 5, [[1, 1, 1, 1, 1]]⟩ : AudioBuffer).length,
      ((max 0 (((⟨10, 5, [[1, 1, 1, 1, 1]]⟩ : AudioBuffer).length : ℚ) -
          200 / 1000 * (⟨10, 5, [[1, 1, 1, 1, 1]]⟩ : AudioBuffer).sampleRate)).den = 1 →
        (AudioService.applyFades ⟨10, 5, [[1, 1, 1, 1, 1]]⟩ 300 200).sample c i =
          (⟨10, 5, [[1, 1, 1, 1, 1]]⟩ : AudioBuffer).sample c i *
            (if (i : ℚ) < 300 / 1000 * (⟨10, 5, [[1, 1, 1, 1, 1]]⟩ : AudioBuffer).sampleRate then
              (i : ℚ) / (300 / 1000 * (⟨10, 5, [[1, 1, 1, 1, 1]]⟩ : AudioBuffer).sampleRate)
            else 1) *
            (if max 0 (((⟨10, 5, [[1, 1, 1, 1, 1]]⟩ : AudioBuffer).length : ℚ) -
                200 / 1000 * (⟨10, 5, [[1, 1, 1, 1, 1]]⟩ : AudioBuffer).sampleRate) ≤ (i : ℚ) then
              1 - ((i : ℚ) - max 0 (((⟨10, 5, [[1, 1, 1, 1, 1]]⟩ : AudioBuffer).length : ℚ) -
                200 / 1000 * (⟨10, 5, [[1, 1, 1, 1, 1]]⟩ : AudioBuffer).sampleRate)) /
                (200 / 1000 * (⟨10, 5, [[1, 1, 1, 1, 1]]⟩ : AudioBuffer).sampleRate)
            else 1)) ∧
      ((max 0 (((⟨10, 5, [[1, 1, 1, 1, 1]]⟩ : AudioBuffer).length : ℚ) -
          200 / 1000 * (⟨10, 5, [[1, 1, 1, 1, 1]]⟩ : AudioBuffer).sampleRate)).den ≠ 1 →
        (AudioService.applyFades ⟨10, 5, [[1, 1, 1, 1, 1]]⟩ 300 200).sample c i =
          (⟨10, 5, [[1, 1, 1, 1, 1]]⟩ : AudioBuffer).sample c i *
            (if (i : ℚ) < 300 / 1000 * (⟨10, 5, [[1, 1, 1, 1, 1]]⟩ : AudioBuffer).sampleRate then
              (i : ℚ) / (300 / 1000 * (⟨10, 5, [[1, 1, 1, 1, 1]]⟩ : AudioBuffer).sampleRate)
            else 1)) :=
  applyFades_spec ⟨10, 5, [[1, 1, 1, 1, 1]]⟩ 300 200 (by decide)

/-- **C8 counterexample.** A 4-sample buffer at 10 Hz with a 150 ms
fade-out: `fadeOutSamples = 1.5`, so `fadeOutStart = 2.5` is fractional,
the fade-out loop writes only to the non-existent indices `2.5` and `3.5`
and attenuates nothing.  The last sample keeps its value `1`, while the
claimed fade-out ramp would scale it to `2/3`. -/
theorem applyFades_fractional_fadeout_counterexample :
    (AudioService.applyFades ⟨10, 4, [[1, 1, 1, 1]]⟩ 0 150).sample 0 3 = 1 ∧
    (1 : ℚ) * (1 - ((3 : ℚ) - max 0 ((4 : ℚ) - 150 / 1000 * 10)) /
      (150 / 1000 * 10)) ≠ 1 := by
  have hm : max (0 : ℚ) ((4 : ℚ) - 150 / 1000 * 10) = 5 / 2 := by
    rw [max_eq_right (by norm_num : (0 : ℚ) ≤ 4 - 150 / 1000 * 10)]
    norm_num
  constructor
  · have hden : ¬ ((5 / 2 : ℚ).den = 1) := by
      intro hcontra
      have h2 : (((5 / 2 : ℚ).num : ℚ)) = 5 / 2 := (Rat.den_eq_one_iff _).mp hcontra
      have h3 : (((5 / 2 : ℚ).num : ℚ)) * 2 = 5 := by rw [h2]; norm_num
      have h4 : ((5 / 2 : ℚ).num) * 2 = 5 := by exact_mod_cast h3
      omega
    have h := applyFades_sample ⟨10, 4, [[1, 1, 1, 1]]⟩ 0 150 (by decide) 0 3
      (by decide) (by decide)
    have hL : (((⟨10, 4, [[1, 1, 1, 1]]⟩ : AudioBuffer).length : ℚ)) = 4 := by
      show ((4 : ℕ) : ℚ) = 4
      norm_num
    have hR : (((⟨10, 4, [[1, 1, 1, 1]]⟩ : AudioBuffer).sampleRate : ℚ)) = 10 := by
      show ((10 : ℕ) : ℚ) = 10
      norm_num
    rw [hL, hR, hm] at h
    rw [if_neg (by norm_num : ¬ (((3 : ℕ) : ℚ) < 0 / 1000 * 10)),
        if_neg (fun hcontra => hden hcontra.1), mul_one, mul_one] at h
    rw [h]
    rfl
  · rw [hm]
    norm_num

lemma dropWhile_append_singleton {α : Type} (p : α → Bool) (xs : List α) (c : α)
    (hc : p c = false) : (xs ++ [c]).dropWhile p = xs.dropWhile p ++ [c] := by
  induction xs with
  | nil => simp [List.dropWhile, hc]
  | cons a as ih =>
    by_cases h : p a
    · simp [List.dropWhile_cons, h, ih]
    · simp [List.dropWhile_cons, h]

/-- A remainder that ends in a (non-space, non-digit) `;` never matches
`\s*(\d+(\.\d+)?)?\s*$`. -/
lemma tailMatch_append_semi (xs : List Char) : tailMatch (xs ++ [';']) = none := by
  have hws : isJsWS ';' = false := by decide
  have hdig : Char.isDigit ';' = false := by decide
  unfold tailMatch
  rw [dropWhile_append_singleton _ _ _ hws, dropWhile_append_singleton _ _ _ hdig]
  have hne : (xs.dropWhile isJsWS ++ [';']).isEmpty = false := by simp
  rw [if_neg (by simp [hne])]
  by_cases hd1 : ((xs.dropWhile isJsWS ++ [';']).takeWhile Char.isDigit).isEmpty = true
  case pos => rw [if_pos hd1]
  case neg =>
    rw [if_neg hd1]
    cases hzs : (xs.dropWhile isJsWS).dropWhile Char.isDigit with
    | nil => simp [hws]
    | cons c t =>
      simp only [List.cons_append]
      by_cases hc : c = '.'
      · subst hc
        rw [if_pos rfl, dropWhile_append_singleton _ _ _ hdig]
        by_cases hd2 : ((t ++ [';']).takeWhile Char.isDigit).isEmpty = true
        case pos => rw [if_pos hd2]
        case neg =>
          rw [if_neg hd2]
          rw [if_neg (by simp [List.all_append, hws])]
      · rw [if_neg hc]
        rw [if_neg (by simp [List.all_append, hws])]

/-- A line without a `;` makes every candidate split position of the
optional group fail, so the lazy group must swallow the whole line. -/
lemma semiSplit_eq_none_of_not_mem (t : String) (ht : ';' ∉ t.data) :
    semiSplit t.data = none := by
  unfold semiSplit
  rw [List.filter_eq_nil_iff.mpr ?_]
  · rfl
  · intro p hp
    simp only [List.mem_range] at hp
    intro hcond
    rw [Bool.and_eq_true, Bool.and_eq_true, Bool.and_eq_true] at hcond
    have h2 := hcond.1.1.2
    rw [decide_eq_true_eq] at h2
    exact ht (h2 ▸ getD_mem_of_lt t.data p hp ' ')

/-- **C4 (amended).** `parseTextFile` splits on newlines, trims each line,
skips blank lines without producing a phrase and without affecting the
parsing or the order of the remaining lines; each retained line
contributes exactly one phrase at its position (or aborts with its line
error).  A non-blank semicolon-free line all of whose characters are
matchable by the regex `.` — i.e. free of `\r`, U+2028 and U+2029 —
parses leniently with duration `0`, as does a line with a trailing
semicolon; but a semicolon-free line holding a character `.` cannot match
throws `Invalid line format`.  The empty input fails with the
non-empty-content error, and a non-empty input producing zero phrases
fails with the no-phrases error. -/
theorem parseTextFile_spec :
    parseTextFile "" = .error "Content must be a non-empty string" ∧
    (∀ lines : List String,
      processLines lines = processLines (lines.filter (fun l => jsTrim l ≠ ""))) ∧
    (∀ (l : String) (ls : List String), jsTrim l ≠ "" →
      processLines (l :: ls) =
        (parseLine (jsTrim l)).bind (fun ph =>
          (processLines ls).map (fun rest => ph :: rest))) ∧
    (∀ t : String, ';' ∉ t.data → t.data.all isDotMatchable = true →
      parseLine t = .ok { phrase := jsTrim (String.mk (stripTrailingSemiWs t.data))
                          duration := 0 }) ∧
    (∀ s : String, s.data.all isDotMatchable = true →
      ∃ ph, parseLine (s ++ ";") = .ok ph ∧ ph.duration = 0) ∧
    (∀ t : String, ';' ∉ t.data → ¬ t.data.all isDotMatchable = true →
      parseLine t = .error ("Invalid line format: \"" ++ t ++ "\"")) ∧
    (∀ content : String, content ≠ "" →
      processLines ((splitNl (jsTrim content).data).map String.mk) = .ok [] →
      parseTextFile content = .error "No valid phrases found in file") := by
  refine ⟨rfl, ?_, ?_, ?_, ?_, ?_, ?_⟩
  · intro lines
    induction lines with
    | nil => rfl
    | cons l ls ih =>
      by_cases h : jsTrim l = ""
      · simp [processLines, h, ih]
      · simp [processLines, h, ih]
  · intro l ls h
    simp only [processLines, if_neg h]
    cases hp : parseLine (jsTrim l) with
    | error e => rfl
    | ok ph =>
      cases hr : processLines ls with
      | error e => rfl
      | ok rest => rfl
  · intro t ht hall
    simp only [parseLine, semiSplit_eq_none_of_not_mem t ht]
    rw [if_pos hall]
  · intro s hall
    have hdata : (s ++ ";").data = s.data ++ [';'] := rfl
    have hall2 : ((s ++ ";").data).all isDotMatchable = true := by
      rw [hdata, List.all_append, Bool.and_eq_true]
      exact ⟨hall, by decide⟩
    have hkey : ∀ p ∈ (List.range (s ++ ";").data.length).filter (fun p =>
        decide (1 ≤ p) && decide ((s ++ ";").data.getD p ' ' = ';') &&
          ((s ++ ";").data.take p).all isDotMatchable &&
          (tailMatch ((s ++ ";").data.drop (p+1))).isSome),
        tailMatch ((s ++ ";").data.drop (p+1)) = some none := by
      intro p hp
      rw [List.mem_filter] at hp
      obtain ⟨hpr, hcond⟩ := hp
      rw [List.mem_range] at hpr
      have hlen : (s ++ ";").data.length = s.data.length + 1 := by
        rw [hdata]; simp
      rcases lt_or_ge (p + 1) (s.data.length + 1) with hlt | hge
      · exfalso
        have hdrop : (s ++ ";").data.drop (p+1) = s.data.drop (p+1) ++ [';'] := by
          rw [hdata]
          exact List.drop_append_of_le_length (by omega)
        rw [Bool.and_eq_true] at hcond
        have := hcond.2
        rw [hdrop, tailMatch_append_semi] at this
        simp at this
      · have hdrop : (s ++ ";").data.drop (p+1) = [] :=
          List.drop_eq_nil_of_le (by omega)
        rw [hdrop]
        rfl
    simp only [parseLine]
    cases hss : semiSplit (s ++ ";").data with
    | none =>
      dsimp only
      rw [if_pos hall2]
      exact ⟨_, rfl, rfl⟩
    | some p =>
      have hp : p ∈ (List.range (s ++ ";").data.length).filter (fun p =>
          decide (1 ≤ p) && decide ((s ++ ";").data.getD p ' ' = ';') &&
            ((s ++ ";").data.take p).all isDotMatchable &&
            (tailMatch ((s ++ ";").data.drop (p+1))).isSome) := by
        apply List.mem_of_mem_head?
        unfold semiSplit at hss
        rw [hss]
        rfl
      dsimp only
      rw [hkey p hp]
      exact ⟨_, rfl, rfl⟩
  · intro t ht hall
    simp only [parseLine, semiSplit_eq_none_of_not_mem t ht]
    rw [if_neg hall]
  · intro content hc hzero
    unfold parseTextFile
    rw [if_neg hc, hzero]
    rfl

/-- **C4 counterexample.** JavaScript `.` matches neither `\r` nor
U+2028/U+2029, so the non-blank semicolon-free line `"a\rb"` — which the
claim says parses leniently with duration `0` — fails the regex at
parser.js:21 and `parseTextFile` throws `Invalid line format`
(parser.js:23-25) instead of returning a phrase. -/
theorem parseTextFile_cr_counterexample :
    parseTextFile "a\rb" = .error "Invalid line format: \"a\rb\"" ∧
    jsTrim "a\rb" ≠ "" ∧ ';' ∉ "a\rb".data :=
  ⟨rfl, by decide, by decide⟩

/-- `List.lookup` (JS property access `options[key]`) is insensitive to
the insertion order of an association list with distinct keys. -/
lemma lookup_eq_of_perm (o1 o2 : List (String × JsonValue)) (h : o1.Perm o2) :
    (o1.map Prod.fst).Nodup → ∀ k, o1.lookup k = o2.lookup k := by
  induction h with
  | nil => intro _ k; rfl
  | cons x _ ih =>
    intro hn k
    obtain ⟨x1, x2⟩ := x
    simp only [List.map_cons, List.nodup_cons] at hn
    cases hbeq : (k == x1) with
    | true => simp [List.lookup, hbeq]
    | false => simp [List.lookup, hbeq, ih hn.2 k]
  | swap x y l =>
    intro hn k
    obtain ⟨x1, x2⟩ := x
    obtain ⟨y1, y2⟩ := y
    simp only [List.map_cons, List.nodup_cons, List.mem_cons] at hn
    have hxy : y1 ≠ x1 := fun hcontra => hn.1 (Or.inl hcontra)
    cases hkx : (k == x1) with
    | true =>
      cases hky : (k == y1) with
      | true =>
        exact absurd ((eq_of_beq hky).symm.trans (eq_of_beq hkx)) hxy
      | false => simp [List.lookup, hkx, hky]
    | false => cases hky : (k == y1) <;> simp [List.lookup, hkx, hky]
  | trans h₁ h₂ ih₁ ih₂ =>
    intro hn k
    rw [ih₁ hn k, ih₂ (((h₁.map Prod.fst).nodup_iff).mp hn) k]

set_option maxRecDepth 4000 in
/-- **C2.** `generateKey` is insensitive to the insertion order of the
options object (the replacer array `Object.keys(options).sort()` fixes the
serialization order), and the two keys of the spec's stability test
differ. -/
theorem generateKey_spec :
    (∀ (text engine : String) (o1 o2 : List (String × JsonValue)),
      o1.Perm o2 → (o1.map Prod.fst).Nodup →
      generateKey text engine o1 = generateKey text engine o2) ∧
    generateKey "Hello" "openai" [("voice", .str "nova"), ("speed", .int 1)] ≠
      generateKey "Hello" "openai" [("voice", .str "shimmer"), ("speed", .int 1)] := by
  constructor
  · intro text engine o1 o2 hperm hnodup
    unfold generateKey
    have hkeys : List.insertionSort jsStrLeRel (o1.map Prod.fst) =
        List.insertionSort jsStrLeRel (o2.map Prod.fst) :=
      List.eq_of_perm_of_sorted
        ((List.perm_insertionSort jsStrLeRel (o1.map Prod.fst)).trans
          ((hperm.map Prod.fst).trans
            (List.perm_insertionSort jsStrLeRel (o2.map Prod.fst)).symm))
        (List.sorted_insertionSort jsStrLeRel (o1.map Prod.fst))
        (List.sorted_insertionSort jsStrLeRel (o2.map Prod.fst))
    have hlam : (fun k => (o1.lookup k).map
          (fun v => "\"" ++ k ++ "\":" ++ v.serialize)) =
        (fun k => (o2.lookup k).map
          (fun v => "\"" ++ k ++ "\":" ++ v.serialize)) :=
      funext fun k => by rw [lookup_eq_of_perm o1 o2 hperm hnodup k]
    rw [hkeys, hlam]
  · decide

/-- Closed-form witness for `generateKey_spec`: the same options given in
the two insertion orders of the spec's test produce the same key. -/
theorem generateKey_spec_witness :
    generateKey "Hello" "openai" [("voice", .str "nova"), ("speed", .int 1)] =
      generateKey "Hello" "openai" [("speed", .int 1), ("voice", .str "nova")] :=
  generateKey_spec.1 "Hello" "openai" _ _ (List.Perm.swap _ _ _) (by decide)

/-- Survivors of the prune cursor walk: the suffix left once the running
size no longer exceeds the target. -/
def dropOldest : List CacheEntry → ℕ → List CacheEntry
  | [], _ => []
  | e :: rest, cur =>
    if cur > targetCacheBytes then dropOldest rest (cur - e.size) else e :: rest

lemma pruneScan_split : ∀ (l : List CacheEntry) (cur : ℕ),
    ∃ del, l = del ++ dropOldest l cur ∧
      pruneScan l cur = del.map CacheEntry.key := by
  intro l
  induction l with
  | nil => intro cur; exact ⟨[], rfl, rfl⟩
  | cons e rest ih =>
    intro cur
    by_cases h : cur > targetCacheBytes
    · obtain ⟨del', h1, h2⟩ := ih (cur - e.size)
      refine ⟨e :: del', ?_, ?_⟩
      · simp only [dropOldest, if_pos h, List.cons_append]
        rw [← h1]
      · simp only [pruneScan, if_pos h, h2, List.map_cons]
    · exact ⟨[], by simp [dropOldest, if_neg h], by simp [pruneScan, if_neg h]⟩

lemma dropOldest_total_le : ∀ (l : List CacheEntry) (cur : ℕ),
    totalSize l ≤ cur → totalSize (dropOldest l cur) ≤ targetCacheBytes := by
  intro l
  induction l with
  | nil => intro cur _; simp [dropOldest, totalSize]
  | cons e rest ih =>
    intro cur hcur
    by_cases h : cur > targetCacheBytes
    · simp only [dropOldest, if_pos h]
      apply ih
      simp only [totalSize, List.map_cons, List.sum_cons] at hcur
      simp only [totalSize]
      omega
    · simp only [dropOldest, if_neg h]
      omega

/-- **C7 (counterexample).** The claim says eviction happens only when the
total size *exceeds* the 100 MB maximum; a store holding exactly
104857600 bytes does not exceed the maximum, yet `pruneCache` (whose
early-return guard is `totalSize < max`) removes its entry. -/
theorem pruneCache_exact_max_counterexample :
    totalSize [({ key := "k", timestamp := 0, size := 104857600 } : CacheEntry)] ≤
      maxCacheBytes ∧
    pruneCache [({ key := "k", timestamp := 0, size := 104857600 } : CacheEntry)] ≠
      [({ key := "k", timestamp := 0, size := 104857600 } : CacheEntry)] := by
  decide

/-- **C7 (amended).** `pruneCache` removes entries only when the total
cached size is at least (not strictly above) the 100 MB maximum; it then
deletes oldest-first until the total is at most `0.8 ×` maximum, so the
total after pruning is at most the maximum, only stored entries remain,
and (for distinct creation timestamps) every retained entry is newer than
every removed entry. -/
theorem pruneCache_spec (entries : List CacheEntry)
    (hkeys : (entries.map CacheEntry.key).Nodup) :
    (totalSize entries < maxCacheBytes → pruneCache entries = entries) ∧
    totalSize (pruneCache entries) ≤ maxCacheBytes ∧
    (maxCacheBytes ≤ totalSize entries →
      totalSize (pruneCache entries) ≤ targetCacheBytes) ∧
    (∀ e ∈ pruneCache entries, e ∈ entries) ∧
    ((entries.map CacheEntry.timestamp).Nodup →
      ∀ d ∈ entries, d ∉ pruneCache entries →
        ∀ r ∈ pruneCache entries, d.timestamp < r.timestamp) := by
  by_cases hsmall : totalSize entries < maxCacheBytes
  · rw [show pruneCache entries = entries from by rw [pruneCache, if_pos hsmall]]
    exact ⟨fun _ => rfl, by omega, fun h => absurd h (by omega), fun e he => he,
      fun _ d hd hnd _ _ => absurd hd hnd⟩
  · have hbig : pruneCache entries =
        entries.filter (fun e => decide (e.key ∉
          pruneScan (List.insertionSort entryLE entries) (totalSize entries))) := by
      rw [pruneCache, if_neg hsmall]
    have hperm : (List.insertionSort entryLE entries).Perm entries :=
      List.perm_insertionSort _ _
    obtain ⟨del, hsplit, hscan⟩ :=
      pruneScan_split (List.insertionSort entryLE entries) (totalSize entries)
    set surv := dropOldest (List.insertionSort entryLE entries) (totalSize entries)
      with hsurv
    have htots : totalSize (List.insertionSort entryLE entries) =
        totalSize entries := (hperm.map CacheEntry.size).sum_eq
    have hsurvle : totalSize surv ≤ targetCacheBytes :=
      dropOldest_total_le _ _ (le_of_eq htots)
    have hkeys_sorted :
        ((List.insertionSort entryLE entries).map CacheEntry.key).Nodup :=
      ((hperm.map CacheEntry.key).nodup_iff).mpr hkeys
    rw [hsplit, List.map_append, List.nodup_append] at hkeys_sorted
    have hfilter : (pruneCache entries).Perm surv := by
      rw [hbig, hscan]
      have h1 : (entries.filter
          (fun e => decide (e.key ∉ del.map CacheEntry.key))).Perm
          ((List.insertionSort entryLE entries).filter
            (fun e => decide (e.key ∉ del.map CacheEntry.key))) :=
        (hperm.filter _).symm
      have h2 : (List.insertionSort entryLE entries).filter
          (fun e => decide (e.key ∉ del.map CacheEntry.key)) = surv := by
        rw [hsplit, List.filter_append]
        have hdel : del.filter
            (fun e => decide (e.key ∉ del.map CacheEntry.key)) = [] := by
          rw [List.filter_eq_nil_iff]
          intro e he
          simp only [decide_eq_true_eq, not_not]
          exact List.mem_map_of_mem _ he
        have hsurv' : surv.filter
            (fun e => decide (e.key ∉ del.map CacheEntry.key)) = surv := by
          rw [List.filter_eq_self]
          intro e he
          simp only [decide_eq_true_eq]
          exact fun hcontra =>
            hkeys_sorted.2.2 hcontra (List.mem_map_of_mem _ he)
        rw [hdel, hsurv', List.nil_append]
      exact h1.trans (h2 ▸ List.Perm.refl _)
    have htotsurv : totalSize (pruneCache entries) = totalSize surv :=
      (hfilter.map CacheEntry.size).sum_eq
    refine ⟨fun h => absurd h hsmall, ?_, fun _ => ?_, ?_, ?_⟩
    · rw [htotsurv]
      calc totalSize surv ≤ targetCacheBytes := hsurvle
        _ ≤ maxCacheBytes := by norm_num [targetCacheBytes, maxCacheBytes]
    · rw [htotsurv]; exact hsurvle
    · intro e he
      rw [hbig] at he
      exact List.mem_of_mem_filter he
    · intro hts d hd hnd r hr
      have hsorted : List.Sorted entryLE (List.insertionSort entryLE entries) :=
        List.sorted_insertionSort _ _
      rw [hsplit] at hsorted
      have hcross := (List.pairwise_append.mp hsorted).2.2
      have hd' : d ∈ del := by
        have : d ∈ del ++ surv := hsplit ▸ hperm.mem_iff.mpr hd
        rcases List.mem_append.mp this with h | h
        · exact h
        · exact absurd (hfilter.mem_iff.mpr h) hnd
      have hr' : r ∈ surv := hfilter.mem_iff.mp hr
      have hts_sorted :
          ((List.insertionSort entryLE entries).map CacheEntry.timestamp).Nodup :=
        ((hperm.map CacheEntry.timestamp).nodup_iff).mpr hts
      rw [hsplit, List.map_append, List.nodup_append] at hts_sorted
      have hne : d.timestamp ≠ r.timestamp := fun hcontra =>
        hts_sorted.2.2 (List.mem_map_of_mem _ hd')
          (hcontra ▸ List.mem_map_of_mem _ hr')
      rcases hcross d hd' r hr' with h | ⟨h, _⟩
      · exact h
      · exact absurd h hne

lemma sum_map_const {α : Type} (l : List α) (k : ℕ) (f : α → ℕ)
    (hf : ∀ a ∈ l, f a = k) : (l.map f).sum = l.length * k := by
  induction l with
  | nil => simp
  | cons a rest ih =>
    simp only [List.map_cons, List.sum_cons, List.length_cons]
    rw [hf a (List.mem_cons_self _ _), ih (fun x hx => hf x (List.mem_cons_of_mem _ hx))]
    ring

lemma flatten_drop_blocks {α : Type} (L : ℕ) : ∀ (bs : List (List α)) (i : ℕ),
    (∀ b ∈ bs, b.length = L) → bs.flatten.drop (i * L) = (bs.drop i).flatten := by
  intro bs
  induction bs with
  | nil => intro i _; simp
  | cons b rest ih =>
    intro i hlen
    cases i with
    | zero => simp
    | succ k =>
      have hb : b.length = L := hlen b (List.mem_cons_self _ _)
      rw [List.flatten_cons, List.drop_succ_cons,
        show (k + 1) * L = b.length + k * L by rw [hb]; ring,
        List.drop_append, ih k (fun x hx => hlen x (List.mem_cons_of_mem _ hx))]

lemma take_drop_append {α : Type} (l r : List α) (a k : ℕ) (h : a + k ≤ l.length) :
    ((l ++ r).drop a).take k = (l.drop a).take k := by
  rw [List.drop_append_of_le_length (by omega),
    List.take_append_of_le_length (by simp; omega)]

lemma wavFrame_length (chans : List (List ℚ)) (numChannels i : ℕ) :
    (wavFrame chans numChannels i).length = numChannels * 2 := by
  unfold wavFrame
  rw [List.length_flatten, List.map_map]
  have h2 : ∀ a ∈ List.range numChannels, (List.length ∘ fun channel =>
      i16le (sampleToInt16 (sampleAt (chans.getD channel []) i))) a = 2 :=
    fun a _ => rfl
  rw [sum_map_const _ 2 _ h2, List.length_range]

lemma wavHeader_length (numChannels sampleRate dataLength : ℕ) :
    (wavHeader numChannels sampleRate dataLength).length = 44 := by
  simp [wavHeader, asciiCodes, u16le, u32le]

/-- **C5.** The WAV encoder's output is `44 + samplesPerChannel ×
channelCount × 2` bytes: a 44-byte RIFF/WAVE PCM 16-bit header followed by
channel-interleaved 16-bit little-endian samples, each sample first
clamped to `[-1, 1]` and then scaled by 32768 if negative and 32767 if
non-negative (truncated to an integer by the 16-bit DataView write). -/
theorem audioBufferToWav_spec (b : AudioBuffer) (hwf : b.WF)
    (hch : 1 ≤ b.numberOfChannels) :
    (audioBufferToWav b).length = 44 + b.length * b.numberOfChannels * 2 ∧
    (audioBufferToWav b).take 44 =
      wavHeader b.numberOfChannels b.sampleRate
        (b.length * b.numberOfChannels * 2) ∧
    ∀ i < b.length, ∀ c < b.numberOfChannels,
      ((audioBufferToWav b).drop (44 + (i * b.numberOfChannels + c) * 2)).take 2 =
        i16le (jsTrunc
          (if max (-1) (min 1 (b.sample c i)) < 0 then
            max (-1) (min 1 (b.sample c i)) * 32768
          else max (-1) (min 1 (b.sample c i)) * 32767)) := by
  have hn : (b.chans.headD []).length = b.length := by
    apply hwf
    cases hcs : b.chans with
    | nil =>
      exfalso
      have : b.numberOfChannels = 0 := by
        unfold AudioBuffer.numberOfChannels; rw [hcs]; rfl
      omega
    | cons a t => simp
  have hout : audioBufferToWav b =
      wavHeader b.numberOfChannels b.sampleRate
        (b.length * b.numberOfChannels * 2)
      ++ ((List.range b.length).map
          (wavFrame b.chans b.numberOfChannels)).flatten := by
    unfold audioBufferToWav
    rw [hn]
  have hblocks : ∀ bl ∈ (List.range b.length).map
      (wavFrame b.chans b.numberOfChannels),
      bl.length = b.numberOfChannels * 2 := by
    intro bl hbl
    obtain ⟨i, _, rfl⟩ := List.mem_map.mp hbl
    exact wavFrame_length _ _ _
  have hS : (((List.range b.length).map
      (wavFrame b.chans b.numberOfChannels)).flatten).length =
      b.length * (b.numberOfChannels * 2) := by
    rw [List.length_flatten, sum_map_const _ (b.numberOfChannels * 2) _ hblocks]
    simp
  refine ⟨?_, ?_, ?_⟩
  · rw [hout, List.length_append, wavHeader_length, hS]
    ring
  · rw [hout, show (44 : ℕ) =
      (wavHeader b.numberOfChannels b.sampleRate
        (b.length * b.numberOfChannels * 2)).length from
          (wavHeader_length _ _ _).symm,
      List.take_left]
  · intro i hi c hc
    rw [hout, show 44 + (i * b.numberOfChannels + c) * 2 =
      (wavHeader b.numberOfChannels b.sampleRate
        (b.length * b.numberOfChannels * 2)).length +
        (i * (b.numberOfChannels * 2) + c * 2) from by
          rw [wavHeader_length]; ring,
      List.drop_append]
    rw [← List.drop_drop, flatten_drop_blocks _ _ _ hblocks]
    have hdropmap : (List.map (wavFrame b.chans b.numberOfChannels)
        (List.range b.length)).drop i =
        wavFrame b.chans b.numberOfChannels i ::
          (List.map (wavFrame b.chans b.numberOfChannels)
            (List.range b.length)).drop (i + 1) := by
      rw [List.drop_eq_getElem_cons (by simpa using hi), List.getElem_map,
        List.getElem_range]
    rw [hdropmap, List.flatten_cons]
    have hin : c * 2 + 2 ≤ (wavFrame b.chans b.numberOfChannels i).length := by
      rw [wavFrame_length]; omega
    rw [take_drop_append _ _ _ _ hin]
    unfold wavFrame
    rw [flatten_drop_blocks 2 _ c (by
      intro x hx
      obtain ⟨j, _, rfl⟩ := List.mem_map.mp hx
      rfl)]
    have hdropmap2 : ((List.range b.numberOfChannels).map (fun channel =>
        i16le (sampleToInt16 (sampleAt (b.chans.getD channel []) i)))).drop c =
        i16le (sampleToInt16 (sampleAt (b.chans.getD c []) i)) ::
          ((List.range b.numberOfChannels).map (fun channel =>
            i16le (sampleToInt16 (sampleAt (b.chans.getD channel []) i)))).drop (c + 1) := by
      rw [List.drop_eq_getElem_cons (by simpa using hc), List.getElem_map,
        List.getElem_range]
    rw [hdropmap2, List.flatten_cons]
    rw [show (2 : ℕ) = (i16le (sampleToInt16
        (sampleAt (b.chans.getD c []) i))).length from rfl,
      List.take_left]
    rfl

/-- Closed-form witness for `audioBufferToWav_spec`: a 2-sample stereo
buffer with samples needing clamping. -/
theorem audioBufferToWav_spec_witness :
    (audioBufferToWav ⟨8000, 2, [[1, -2], [1/2, -1/2]]⟩).length =
      44 + (⟨8000, 2, [[1, -2], [1/2, -1/2]]⟩ : AudioBuffer).length *
        (⟨8000, 2, [[1, -2], [1/2, -1/2]]⟩ : AudioBuffer).numberOfChannels * 2 ∧
    (audioBufferToWav ⟨8000, 2, [[1, -2], [1/2, -1/2]]⟩).take 44 =
      wavHeader (⟨8000, 2, [[1, -2], [1/2, -1/2]]⟩ : AudioBuffer).numberOfChannels
        (⟨8000, 2, [[1, -2], [1/2, -1/2]]⟩ : AudioBuffer).sampleRate
        ((⟨8000, 2, [[1, -2], [1/2, -1/2]]⟩ : AudioBuffer).length *
          (⟨8000, 2, [[1, -2], [1/2, -1/2]]⟩ : AudioBuffer).numberOfChannels * 2) ∧
    ∀ i < (⟨8000, 2, [[1, -2], [1/2, -1/2]]⟩ : AudioBuffer).length,
      ∀ c < (⟨8000, 2, [[1, -2], [1/2, -1/2]]⟩ : AudioBuffer).numberOfChannels,
      ((audioBufferToWav ⟨8000, 2, [[1, -2], [1/2, -1/2]]⟩).drop
          (44 + (i * (⟨8000, 2, [[1, -2], [1/2, -1/2]]⟩ : AudioBuffer).numberOfChannels
            + c) * 2)).take 2 =
        i16le (jsTrunc
          (if max (-1) (min 1 ((⟨8000, 2, [[1, -2], [1/2, -1/2]]⟩ : AudioBuffer).sample c i)) < 0 then
            max (-1) (min 1 ((⟨8000, 2, [[1, -2], [1/2, -1/2]]⟩ : AudioBuffer).sample c i)) * 32768
          else max (-1) (min 1 ((⟨8000, 2, [[1, -2], [1/2, -1/2]]⟩ : AudioBuffer).sample c i)) * 32767)) :=
  audioBufferToWav_spec ⟨8000, 2, [[1, -2], [1/2, -1/2]]⟩ (by decide) (by decide)

/-- Closed-form witness for `pruneCache_spec`: three entries with
distinct timestamps totalling 120 MB force eviction of the oldest. -/
theorem pruneCache_spec_witness :
    (totalSize [({ key := "a", timestamp := 3, size := 52428800 } : CacheEntry),
        { key := "b", timestamp := 1, size := 41943040 },
        { key := "c", timestamp := 2, size := 31457280 }] < maxCacheBytes →
      pruneCache [({ key := "a", timestamp := 3, size := 52428800 } : CacheEntry),
        { key := "b", timestamp := 1, size := 41943040 },
        { key := "c", timestamp := 2, size := 31457280 }] =
        [({ key := "a", timestamp := 3, size := 52428800 } : CacheEntry),
          { key := "b", timestamp := 1, size := 41943040 },
          { key := "c", timestamp := 2, size := 31457280 }]) ∧
    totalSize (pruneCache
      [({ key := "a", timestamp := 3, size := 52428800 } : CacheEntry),
        { key := "b", timestamp := 1, size := 41943040 },
        { key := "c", timestamp := 2, size := 31457280 }]) ≤ maxCacheBytes ∧
    (maxCacheBytes ≤ totalSize
        [({ key := "a", timestamp := 3, size := 52428800 } : CacheEntry),
          { key := "b", timestamp := 1, size := 41943040 },
          { key := "c", timestamp := 2, size := 31457280 }] →
      totalSize (pruneCache
        [({ key := "a", timestamp := 3, size := 52428800 } : CacheEntry),
          { key := "b", timestamp := 1, size := 41943040 },
          { key := "c", timestamp := 2, size := 31457280 }]) ≤ targetCacheBytes) ∧
    (∀ e ∈ pruneCache
        [({ key := "a", timestamp := 3, size := 52428800 } : CacheEntry),
          { key := "b", timestamp := 1, size := 41943040 },
          { key := "c", timestamp := 2, size := 31457280 }],
      e ∈ [({ key := "a", timestamp := 3, size := 52428800 } : CacheEntry),
          { key := "b", timestamp := 1, size := 41943040 },
          { key := "c", timestamp := 2, size := 31457280 }]) ∧
    (((([({ key := "a", timestamp := 3, size := 52428800 } : CacheEntry),
          { key := "b", timestamp := 1, size := 41943040 },
          { key := "c", timestamp := 2, size := 31457280 }]).map
            CacheEntry.timestamp).Nodup) →
      ∀ d ∈ [({ key := "a", timestamp := 3, size := 52428800 } : CacheEntry),
          { key := "b", timestamp := 1, size := 41943040 },
          { key := "c", timestamp := 2, size := 31457280 }],
        d ∉ pruneCache
          [({ key := "a", timestamp := 3, size := 52428800 } : CacheEntry),
            { key := "b", timestamp := 1, size := 41943040 },
            { key := "c", timestamp := 2, size := 31457280 }] →
        ∀ r ∈ pruneCache
          [({ key := "a", timestamp := 3, size := 52428800 } : CacheEntry),
            { key := "b", timestamp := 1, size := 41943040 },
            { key := "c", timestamp := 2, size := 31457280 }],
          d.timestamp < r.timestamp) :=
  pruneCache_spec _ (by decide)

/-- Closed-form witness for `parseTextFile_spec`: a program with blank
lines, a plain line, a line with a trailing semicolon, a line holding a
carriage return, and an all-blank input. -/
theorem parseTextFile_spec_witness :
    parseTextFile "" = .error "Content must be a non-empty string" ∧
    processLines ["Hello world; 2", "", "   ", "Goodbye"] =
      processLines (["Hello world; 2", "", "   ", "Goodbye"].filter
        (fun l => jsTrim l ≠ "")) ∧
    (jsTrim "a" ≠ "" ∧ processLines ["a", "b"] =
      (parseLine (jsTrim "a")).bind (fun ph =>
        (processLines ["b"]).map (fun rest => ph :: rest))) ∧
    (';' ∉ "Goodbye".data ∧ "Goodbye".data.all isDotMatchable = true ∧
      parseLine "Goodbye" = .ok { phrase := jsTrim (String.mk
        (stripTrailingSemiWs "Goodbye".data)), duration := 0 }) ∧
    ("text".data.all isDotMatchable = true ∧
      ∃ ph, parseLine ("text" ++ ";") = .ok ph ∧ ph.duration = 0) ∧
    (';' ∉ "a\rb".data ∧ ¬ "a\rb".data.all isDotMatchable = true ∧
      parseLine "a\rb" = .error ("Invalid line format: \"" ++ "a\rb" ++ "\"")) ∧
    ("   " ≠ "" ∧
      processLines ((splitNl (jsTrim "   ").data).map String.mk) = .ok [] ∧
      parseTextFile "   " = .error "No valid phrases found in file") :=
  ⟨parseTextFile_spec.1,
   parseTextFile_spec.2.1 _,
   ⟨by decide, parseTextFile_spec.2.2.1 "a" ["b"] (by decide)⟩,
   ⟨by decide, by decide,
     parseTextFile_spec.2.2.2.1 "Goodbye" (by decide) (by decide)⟩,
   ⟨by decide, parseTextFile_spec.2.2.2.2.1 "text" (by decide)⟩,
   ⟨by decide, by decide,
     parseTextFile_spec.2.2.2.2.2.1 "a\rb" (by decide) (by decide)⟩,
   ⟨by decide, by rfl,
     parseTextFile_spec.2.2.2.2.2.2 "   " (by decide) (by rfl)⟩⟩

lemma mp3EncodeBlocks_error_msg {σ : Type} (cancelledAt : ℕ → Bool)
    (step : σ → ℕ → σ × List ℤ) :
    ∀ (ks : List ℕ) (st : σ) (acc : List (List ℤ)) (e : String),
      mp3EncodeBlocks cancelledAt step ks st acc = .error e →
      e = "MP3 encoding cancelled by user" := by
  intro ks
  induction ks with
  | nil => intro st acc e h; cases h
  | cons k rest ih =>
    intro st acc e h
    unfold mp3EncodeBlocks at h
    by_cases hc : cancelledAt k = true
    · rw [if_pos hc] at h
      exact (Except.error.inj h).symm
    · rw [if_neg hc] at h
      exact ih _ _ _ h

/-- **C6.** The MP3 encoder checks the cancellation flag at the start of
every frame iteration (block indices `0 … totalBlocks-1`) and once more
just before the flush; if the flag is set at any of these checkpoints
(the flag, once set by `cancelEncoding()`, stays set for the rest of the
encode), the operation raises the cancellation error and returns no
bytes — never a partial chunk list and never a silent success. -/
theorem audioBufferToMP3_cancellation {σ : Type} (init : σ)
    (encodeMono : σ → List ℤ → σ × List ℤ)
    (encodeStereo : σ → List ℤ → List ℤ → σ × List ℤ)
    (flush : σ → List ℤ) (cancelledAt : ℕ → Bool) (buffer : AudioBuffer)
    (hmono : ∀ j k, j ≤ k → cancelledAt j = true → cancelledAt k = true)
    (k : ℕ) (hk : k ≤ (buffer.length + 1152 - 1) / 1152)
    (hcancel : cancelledAt k = true) :
    audioBufferToMP3 true init encodeMono encodeStereo flush cancelledAt buffer =
      .error "MP3 encoding cancelled by user" := by
  have hTB : cancelledAt ((buffer.length + 1152 - 1) / 1152) = true :=
    hmono k _ hk hcancel
  simp only [audioBufferToMP3]
  rw [if_neg (by simp)]
  cases hrun : mp3EncodeBlocks cancelledAt
      (mp3Step encodeMono encodeStereo buffer.numberOfChannels
        (floatTo16BitPCM (buffer.chans.getD 0 []))
        (floatTo16BitPCM (buffer.chans.getD 1 [])))
      (List.range ((buffer.length + 1152 - 1) / 1152)) init [] with
  | error e =>
    rw [mp3EncodeBlocks_error_msg _ _ _ _ _ _ hrun]
  | ok out =>
    obtain ⟨st, acc⟩ := out
    dsimp only
    rw [if_pos hTB]

/-- Closed-form witness for `audioBufferToMP3_cancellation`: a 3-sample
mono buffer with the flag raised from the second checkpoint on (here
`totalBlocks = 1`, so the flag is seen by the pre-flush check). -/
theorem audioBufferToMP3_cancellation_witness :
    audioBufferToMP3 true (0 : ℕ) (fun st _ => (st, []))
      (fun st _ _ => (st, [])) (fun _ => [1])
      (fun j => decide (1 ≤ j)) ⟨44100, 3, [[0, 0, 0]]⟩ =
      .error "MP3 encoding cancelled by user" :=
  audioBufferToMP3_cancellation 0 (fun st _ => (st, [])) (fun st _ _ => (st, []))
    (fun _ => [1]) (fun j => decide (1 ≤ j)) ⟨44100, 3, [[0, 0, 0]]⟩
    (fun j k hjk hj => by
      simp only [decide_eq_true_eq] at *
      omega)
    1 (by decide) (by decide)

/-- **C3 (counterexample).** The claim says a zero-byte 2xx response is
retried and, when the second response is non-empty, `generateSpeech`
returns the non-empty bytes after exactly 2 requests.  With exactly that
response sequence the adapter returns the zero-byte payload after
issuing a single request: it has no retry logic at all. -/
theorem generateSpeech_no_retry_counterexample :
    generateSpeech (some "sk-test") "Hello" {}
      (fun k => if k = 0 then ⟨true, [], ""⟩ else ⟨true, [1, 2, 3], ""⟩) =
      (.ok [], 1) ∧
    ¬ (generateSpeech (some "sk-test") "Hello" {}
      (fun k => if k = 0 then ⟨true, [], ""⟩ else ⟨true, [1, 2, 3], ""⟩) =
      (.ok [1, 2, 3], 2)) := by
  refine ⟨rfl, fun h => ?_⟩
  rw [show generateSpeech (some "sk-test") "Hello" {}
      (fun k => if k = 0 then ⟨true, [], ""⟩ else ⟨true, [1, 2, 3], ""⟩) =
      ((.ok [] : Except String (List ℕ)), 1) from rfl] at h
  simp at h

/-- **C3 (amended).** For a non-empty, non-silence text,
`generateSpeech` issues exactly one request: a non-2xx response fails
immediately with the provider error and no retry, and a 2xx response's
payload is returned as-is — even when it is zero bytes (no retry, no
delays, no empty-response error). -/
theorem generateSpeech_spec (key text : String) (options : OpenAITTSOptions)
    (responses : ℕ → FetchResponse)
    (htext1 : text ≠ "") (htext2 : text ≠ "*") :
    ((responses 0).ok = false →
      generateSpeech (some key) text options responses =
        (.error ("OpenAI TTS API error: " ++ (responses 0).errorMessage), 1)) ∧
    ((responses 0).ok = true →
      generateSpeech (some key) text options responses =
        (.ok (responses 0).body, 1)) := by
  have hsil : ¬ (text = "" ∨ text = "*") := by
    rintro (h | h)
    · exact htext1 h
    · exact htext2 h
  constructor
  · intro hok
    unfold generateSpeech
    rw [if_neg hsil, if_pos hok]
  · intro hok
    unfold generateSpeech
    rw [if_neg hsil, if_neg (by rw [hok]; simp)]

/-- Closed-form witness for `generateSpeech_spec`: a zero-byte 2xx
response is returned as-is after one request, and a non-2xx response
errors after one request. -/
theorem generateSpeech_spec_witness :
    ((((fun _ => ⟨true, [], ""⟩ : ℕ → FetchResponse) 0).ok = false →
      generateSpeech (some "sk-test") "Hello" {}
        (fun _ => ⟨true, [], ""⟩) =
        (.error ("OpenAI TTS API error: " ++
          (((fun _ => ⟨true, [], ""⟩ : ℕ → FetchResponse) 0)).errorMessage), 1)) ∧
    ((((fun _ => ⟨true, [], ""⟩ : ℕ → FetchResponse) 0)).ok = true →
      generateSpeech (some "sk-test") "Hello" {}
        (fun _ => ⟨true, [], ""⟩) =
        (.ok (((fun _ => ⟨true, [], ""⟩ : ℕ → FetchResponse) 0)).body, 1))) :=
  generateSpeech_spec "sk-test" "Hello" {} (fun _ => ⟨true, [], ""⟩)
    (by decide) (by decide)

end Apg
